import Mathlib

/-!
Verification of the interaction-log component (`src/data/storage_handler.py`)
and the chat flow (`src/app.py`, `process_query`) of the repository.

The storage handler persists a JSON store to a backing file.  We embed the
Python code shallowly:

* JSON-level Python values are `JVal`; the extra constructor `JVal.nonser`
  stands for a Python value that `json.dump` cannot serialize (it raises
  `TypeError` on it).
* Python dicts are insertion-ordered association lists `List (String × JVal)`;
  `d[k] = v` replaces the first binding in place when `k` is present and
  appends `(k, v)` at the end otherwise (`setKey`), and `\x7b**data, "k": v\x7d`
  merging is exactly `setKey "k" v data`.
* The backing file is a `FileState`: it is absent, or present but not valid
  JSON (this covers the empty file and any malformed or truncated content —
  `json.load` raises on all of these), or valid JSON parsing to some `JVal`.
  We treat the Python `json` module as a trusted collaborator: a file written
  by `json.dump storage` loads back as `storage`.
* Each call to `datetime.now().isoformat()` is a fresh clock reading; the
  source calls it twice in `save_data` (once for the entry `timestamp`,
  line 14, once for `lastUpdated`, line 16), so the embedding of `save_data`
  takes two timestamp strings `now1`, `now2`.
* I/O failures of the write phase are an explicit `WriteOutcome` parameter:
  `open(path, "w")` itself may raise (file untouched), or the open succeeds —
  truncating the file — and the streaming `json.dump` fails later (the file
  is left with incomplete content, hence not valid JSON).
-/

inductive JVal where
  | null
  | bool (b : Bool)
  | num (n : Int)
  | str (s : String)
  | arr (elems : List JVal)
  | obj (fields : List (String × JVal))
  | nonser

/-- Python dict lookup `d[k]` on an insertion-ordered association list
(first binding wins; Python dicts have unique keys, so for states reachable
from `json.load` this is exact). -/
def lookupKey (k : String) : List (String × JVal) → Option JVal
  | [] => none
  | (k', v) :: rest => if k' = k then some v else lookupKey k rest

/-- Python dict assignment `d[k] = v`: replace the first binding in place if
`k` is present, otherwise append `(k, v)` at the end (insertion order). -/
def setKey (k : String) (v : JVal) : List (String × JVal) → List (String × JVal)
  | [] => [(k, v)]
  | (k', v') :: rest => if k' = k then (k, v) :: rest else (k', v') :: setKey k v rest

/-- Remove every binding of key `k` (used only to state "the non-timestamp
fields of an entry"). -/
def removeKey (k : String) : List (String × JVal) → List (String × JVal)
  | [] => []
  | (k', v) :: rest => if k' = k then removeKey k rest else (k', v) :: removeKey k rest

mutual
/-- Whether `json.dump` can serialize the value (no `nonser` inside). -/
def JVal.serializable : JVal → Bool
  | .null => true
  | .bool _ => true
  | .num _ => true
  | .str _ => true
  | .arr xs => serializableList xs
  | .obj fs => serializableObj fs
  | .nonser => false

def serializableList : List JVal → Bool
  | [] => true
  | x :: xs => x.serializable && serializableList xs

def serializableObj : List (String × JVal) → Bool
  | [] => true
  | (_, v) :: fs => v.serializable && serializableObj fs
end

/-- State of the backing file `storage.json`. -/
inductive FileState where
  | absent
  | invalid
  | json (v : JVal)

/-- The fresh default store built by the except-branch of `read_storage`
(`storage_handler.py` lines 30-37). -/
def defaultStore : JVal :=
  .obj [("entries", .arr []),
        ("lastUpdated", .null),
        ("metadata", .obj [("version", .str "1.0"),
                           ("description", .str "Data storage for AI web application")])]

/-- `StorageHandler.read_storage` (lines 25-37): `json.load` the file; on any
exception (missing file, empty file, malformed JSON, unreadable file) return
the default store.  A successfully parsed value is returned unchanged,
whatever its shape. -/
def read_storage : FileState → JVal
  | .json v => v
  | _ => defaultStore

/-- Outcome of the write phase of `save_data` (lines 18-19). -/
inductive WriteOutcome where
  | ok
  | openFail
  | writeFail
deriving DecidableEq

/-- The in-memory store after the two mutations of `save_data` (lines 12-16):
`entries` gets `\x7b**data, "timestamp": now1\x7d` appended at the end and
`lastUpdated` is set to `now2`. -/
def appendedStore (now1 now2 : String) (data : List (String × JVal))
    (sfields : List (String × JVal)) (entries : List JVal) : JVal :=
  .obj (setKey "lastUpdated" (.str now2)
    (setKey "entries" (.arr (entries ++ [.obj (setKey "timestamp" (.str now1) data)]))
      sfields))

/-- `StorageHandler.save_data` (lines 9-23).

Python steps, in order, all inside one `try`:
1. `storage = self.read_storage()` — never raises.
2. `storage["entries"].append(\x7b**data, "timestamp": now1\x7d)` — raises
   (TypeError / KeyError / AttributeError) unless `storage` is a dict whose
   `"entries"` value is a list; the appended dict is `data` with its
   `"timestamp"` key set to the first clock reading `now1`.
3. `storage["lastUpdated"] = now2` — second clock reading.
4. `open(path, "w")` — on failure the file is untouched; on success the file
   is truncated, then `json.dump(storage, f, indent=2, ensure_ascii=False)`
   streams the output: if it raises mid-way (unserializable value, or an
   I/O error while writing) the file is left with incomplete content, which
   is not valid JSON.
Any exception is caught and `False` returned; otherwise `True`. -/
def save_data (io : WriteOutcome) (now1 now2 : String)
    (data : List (String × JVal)) (fs : FileState) : Bool × FileState :=
  match read_storage fs with
  | .obj sfields =>
    match lookupKey "entries" sfields with
    | some (.arr entries) =>
      match io with
      | .openFail => (false, fs)
      | .writeFail => (false, .invalid)
      | .ok =>
        if (appendedStore now1 now2 data sfields entries).serializable then
          (true, .json (appendedStore now1 now2 data sfields entries))
        else (false, .invalid)
    | _ => (false, fs)
  | _ => (false, fs)

/-- Session state of the chat flow in `src/app.py`.  The query engine is an
external collaborator: `none` when not initialized
(`st.session_state.query_engine is None`); when present, it maps a query to
`some answer`, or to `none` when `.query` raises. The `StorageHandler`
backing file is carried alongside so that theorems can observe whether the
flow ever touches the persistent log. -/
structure SessionState where
  query_engine : Option (String → Option String)
  chat_history : List JVal
  log_file : FileState

/-- Python `str.strip()` with no argument: remove leading and trailing
whitespace characters. -/
def pyStrip (s : String) : String :=
  String.mk (((s.toList.dropWhile Char.isWhitespace).reverse.dropWhile
    Char.isWhitespace).reverse)

/-- `process_query` (`src/app.py` lines 284-300): warn and return on a
whitespace-only query or a missing engine; otherwise query the engine and
append `\x7b"question": query, "answer": str(response)\x7d` to the in-memory
`st.session_state.chat_history`; an exception from `.query` is caught
(`st.error`) leaving the state unchanged. -/
def process_query (query : String) (st : SessionState) : SessionState :=
  if pyStrip query = "" then st
  else
    match st.query_engine with
    | none => st
    | some engine =>
      match engine query with
      | none => st
      | some response =>
        { st with chat_history :=
            st.chat_history ++ [JVal.obj [("question", .str query),
                                          ("answer", .str response)]] }

/-- One append call in a sequence: the two clock readings taken during the
call, and the caller-supplied fields. -/
structure AppendCall where
  now1 : String
  now2 : String
  data : List (String × JVal)

/-- The entry a call appends: `\x7b**data, "timestamp": now1\x7d`. -/
def entryOf (c : AppendCall) : JVal :=
  .obj (setKey "timestamp" (.str c.now1) c.data)

/-- Run a sequence of `save_data` calls (write phase succeeding), threading
the backing file through. -/
def runAppends : List AppendCall → FileState → FileState
  | [], fs => fs
  | c :: cs, fs => runAppends cs (save_data .ok c.now1 c.now2 c.data fs).2

/-- Whether every `save_data` call in the sequence returns `True`. -/
def allSucceed : List AppendCall → FileState → Bool
  | [], _ => true
  | c :: cs, fs =>
    (save_data .ok c.now1 c.now2 c.data fs).1 &&
      allSucceed cs (save_data .ok c.now1 c.now2 c.data fs).2

/-- Lower-case hex digit, as used by Python for `\u%04x` escapes. -/
def hexDigit (n : Nat) : Char :=
  if n < 10 then Char.ofNat (48 + n) else Char.ofNat (87 + n)

/-- How `json.dumps` with `ensure_ascii=False` renders one character inside a
string literal (the `ESCAPE` regex plus `ESCAPE_DCT` of the `json` module):
backslash, double quote and the named control characters get two-character
escapes, the remaining control characters below U+0020 get `\u00xx`, and
every other character — non-ASCII included — is emitted literally. -/
def escChar (c : Char) : String :=
  if c = '"' then "\\\""
  else if c = '\\' then "\\\\"
  else if c = '\n' then "\\n"
  else if c = '\r' then "\\r"
  else if c = '\t' then "\\t"
  else if c = '\x08' then "\\b"
  else if c = '\x0c' then "\\f"
  else if c.toNat < 32 then
    "\\u00" ++ (hexDigit (c.toNat / 16)).toString ++ (hexDigit (c.toNat % 16)).toString
  else c.toString

/-- A JSON string literal as written by `json.dumps(..., ensure_ascii=False)`. -/
def encodeString (s : String) : String :=
  "\"" ++ String.join (s.toList.map escChar) ++ "\""

/-- `n` spaces (indentation). -/
def spaces (n : Nat) : String :=
  String.mk (List.replicate n ' ')

mutual
/-- `json.dumps(v, indent=2, ensure_ascii=False)` at nesting level `lvl`
(the exact layout of Python the `_iterencode` method of Python `json` with `indent=2`:
item separator `",\n" + indent`, key separator `": "`, empty containers
rendered inline).  `none` when the value is not serializable. -/
def dumpVal (lvl : Nat) : JVal → Option String
  | .null => some "null"
  | .bool true => some "true"
  | .bool false => some "false"
  | .num n => some (toString n)
  | .str s => some (encodeString s)
  | .arr [] => some "[]"
  | .arr (x :: xs) =>
    match dumpItems (lvl + 1) (x :: xs) with
    | some body => some ("[\n" ++ body ++ "\n" ++ spaces (2 * lvl) ++ "]")
    | none => none
  | .obj [] => some "\x7b\x7d"
  | .obj (f :: fs) =>
    match dumpFields (lvl + 1) (f :: fs) with
    | some body => some ("\x7b\n" ++ body ++ "\n" ++ spaces (2 * lvl) ++ "\x7d")
    | none => none
  | .nonser => none

def dumpItems (lvl : Nat) : List JVal → Option String
  | [] => none
  | [x] =>
    match dumpVal lvl x with
    | some s => some (spaces (2 * lvl) ++ s)
    | none => none
  | x :: y :: xs =>
    match dumpVal lvl x, dumpItems lvl (y :: xs) with
    | some s, some rest => some (spaces (2 * lvl) ++ s ++ ",\n" ++ rest)
    | _, _ => none

def dumpFields (lvl : Nat) : List (String × JVal) → Option String
  | [] => none
  | [(k, v)] =>
    match dumpVal lvl v with
    | some s => some (spaces (2 * lvl) ++ encodeString k ++ ": " ++ s)
    | none => none
  | (k, v) :: f :: fs =>
    match dumpVal lvl v, dumpFields lvl (f :: fs) with
    | some s, some rest =>
      some (spaces (2 * lvl) ++ encodeString k ++ ": " ++ s ++ ",\n" ++ rest)
    | _, _ => none
end

/-- Whether `needle` occurs as a contiguous run inside `hay`. -/
def containsSub (needle : List Char) : List Char → Bool
  | [] => needle.isEmpty
  | c :: t => needle.isPrefixOf (c :: t) || containsSub needle t

/-- Whether the file content `json.dump` writes for `v` contains `needle`
as a contiguous substring. -/
def dumpContains (v : JVal) (needle : String) : Bool :=
  match dumpVal 0 v with
  | some s => containsSub needle.toList s.toList
  | none => false

/-- The `entries` component of a store value: `some es` exactly when the value
is a dict whose `"entries"` key holds a list (the shape `save_data` needs). -/
def entriesOf : JVal → Option (List JVal)
  | .obj sf =>
    match lookupKey "entries" sf with
    | some (.arr es) => some es
    | _ => none
  | _ => none

/-- The `lastUpdated` component of a store value. -/
def lastUpdatedOf : JVal → Option JVal
  | .obj sf => lookupKey "lastUpdated" sf
  | _ => none

/-- The `metadata` component of a store value. -/
def metadataOf : JVal → Option JVal
  | .obj sf => lookupKey "metadata" sf
  | _ => none

/-- The `timestamp` field of a log entry. -/
def timestampOf : JVal → Option JVal
  | .obj f => lookupKey "timestamp" f
  | _ => none

/-- The non-timestamp fields of a log entry. -/
def nonTimestampFields : JVal → Option (List (String × JVal))
  | .obj f => some (removeKey "timestamp" f)
  | _ => none

/-- The last element of the `entries` list of a store value, if any. -/
def lastEntryOf (v : JVal) : Option JVal :=
  (entriesOf v).bind List.getLast?

/-- Field access on a dict-shaped value. -/
def fieldOf (e : JVal) (k : String) : Option JVal :=
  match e with
  | .obj f => lookupKey k f
  | _ => none

/-- A backing-file state from which an append can succeed: the loaded store is
a dict with an `"entries"` list and is itself serializable.  Absent or corrupt
files qualify, since loading them yields the default store. -/
def wellFormed (fs : FileState) : Bool :=
  match read_storage fs with
  | .obj sf =>
    match lookupKey "entries" sf with
    | some (.arr _) => serializableObj sf
    | _ => false
  | _ => false

/-- The concrete call of property P5 of the spec: appending a record with a
non-ASCII question and an empty answer to a fresh store (with two concrete
clock readings). -/
def c9call : Bool × FileState :=
  save_data .ok "2024-01-01T00:00:00.000001" "2024-01-01T00:00:00.000123"
    [("question", JVal.str "日本語テスト"), ("answer", JVal.str "")] .absent

theorem lookupKey_setKey_self (k : String) (v : JVal) (l : List (String × JVal)) :
    lookupKey k (setKey k v l) = some v := by
  induction l with
  | nil => simp [setKey, lookupKey]
  | cons p rest ih =>
    obtain ⟨k', v'⟩ := p
    by_cases h : k' = k
    · simp [setKey, lookupKey, h]
    · simp [setKey, lookupKey, h, ih]

theorem lookupKey_setKey_ne (k k2 : String) (v : JVal) (l : List (String × JVal))
    (h : k ≠ k2) : lookupKey k (setKey k2 v l) = lookupKey k l := by
  have h2 : ¬k2 = k := fun hk => h hk.symm
  induction l with
  | nil => simp [setKey, lookupKey, h2]
  | cons p rest ih =>
    obtain ⟨k', v'⟩ := p
    by_cases hk : k' = k2
    · subst hk
      simp [setKey, lookupKey, h2]
    · by_cases hk2 : k' = k
      · subst hk2
        simp [setKey, lookupKey, hk]
      · simp [setKey, lookupKey, hk, hk2, ih]

theorem removeKey_setKey (k : String) (v : JVal) (l : List (String × JVal)) :
    removeKey k (setKey k v l) = removeKey k l := by
  induction l with
  | nil => simp [setKey, removeKey]
  | cons p rest ih =>
    obtain ⟨k', v'⟩ := p
    by_cases h : k' = k
    · simp [setKey, removeKey, h]
    · simp [setKey, removeKey, h, ih]

theorem removeKey_of_not_mem (k : String) (l : List (String × JVal))
    (h : k ∉ l.map Prod.fst) : removeKey k l = l := by
  induction l with
  | nil => simp [removeKey]
  | cons p rest ih =>
    obtain ⟨k', v'⟩ := p
    simp only [List.map_cons, List.mem_cons] at h
    push_neg at h
    have h2 : ¬k' = k := fun hk => h.1 hk.symm
    simp [removeKey, h2, ih h.2]

theorem serializableObj_lookup {l : List (String × JVal)} {k : String} {v : JVal}
    (hl : serializableObj l = true) (hk : lookupKey k l = some v) :
    v.serializable = true := by
  induction l with
  | nil => simp [lookupKey] at hk
  | cons p rest ih =>
    obtain ⟨k', v'⟩ := p
    simp only [serializableObj, Bool.and_eq_true] at hl
    by_cases h : k' = k
    · simp [lookupKey, h] at hk
      exact hk ▸ hl.1
    · simp [lookupKey, h] at hk
      exact ih hl.2 hk

theorem serializableObj_setKey {l : List (String × JVal)} {v : JVal} (k : String)
    (hl : serializableObj l = true) (hv : v.serializable = true) :
    serializableObj (setKey k v l) = true := by
  induction l with
  | nil => simp [setKey, serializableObj, hv]
  | cons p rest ih =>
    obtain ⟨k', v'⟩ := p
    simp only [serializableObj, Bool.and_eq_true] at hl
    by_cases h : k' = k
    · simp [setKey, h, serializableObj, hv, hl.2]
    · simp [setKey, h, serializableObj, hl.1, ih hl.2]

theorem serializableList_append (xs ys : List JVal) :
    serializableList (xs ++ ys) = (serializableList xs && serializableList ys) := by
  induction xs with
  | nil => simp [serializableList]
  | cons x xs ih => simp [serializableList, ih, Bool.and_assoc]

theorem appendedStore_serializable (now1 now2 : String)
    (data sf : List (String × JVal)) (es : List JVal)
    (hsf : serializableObj sf = true)
    (hes : lookupKey "entries" sf = some (.arr es))
    (hdata : serializableObj data = true) :
    (appendedStore now1 now2 data sf es).serializable = true := by
  have hesser : serializableList es = true := by
    have h := serializableObj_lookup hsf hes
    simpa [JVal.serializable] using h
  have hentry : serializableObj (setKey "timestamp" (.str now1) data) = true :=
    serializableObj_setKey _ hdata (by simp [JVal.serializable])
  have harr :
      JVal.serializable
        (.arr (es ++ [.obj (setKey "timestamp" (.str now1) data)])) = true := by
    simp [JVal.serializable, serializableList_append, hesser, serializableList, hentry]
  have h1 : serializableObj
      (setKey "entries" (.arr (es ++ [.obj (setKey "timestamp" (.str now1) data)])) sf)
        = true := serializableObj_setKey _ hsf harr
  have h2 := serializableObj_setKey "lastUpdated" h1
    (v := .str now2) (by simp [JVal.serializable])
  simpa [appendedStore, JVal.serializable] using h2

/-- Inversion of a successful `save_data`: success happens only when the
write succeeded, the loaded store was a dict with an `"entries"` list, and
the mutated store serialized; the new file then holds exactly that store. -/
theorem save_data_true_inversion (io : WriteOutcome) (now1 now2 : String)
    (data : List (String × JVal)) (fs fs' : FileState)
    (h : save_data io now1 now2 data fs = (true, fs')) :
    io = .ok ∧ ∃ sf es, read_storage fs = .obj sf ∧
      lookupKey "entries" sf = some (.arr es) ∧
      (appendedStore now1 now2 data sf es).serializable = true ∧
      fs' = .json (appendedStore now1 now2 data sf es) := by
  unfold save_data at h
  split at h
  next sf hrs =>
    split at h
    next es hes =>
      split at h
      · exact absurd h (by simp)
      · exact absurd h (by simp)
      · split at h
        next hser =>
          simp only [Prod.mk.injEq] at h
          exact ⟨rfl, sf, es, hrs, hes, hser, h.2.symm⟩
        next => exact absurd h (by simp)
    next hes => exact absurd h (by simp)
  next hrs => exact absurd h (by simp)

/-- Evaluation of `save_data` on well-shaped serializable input: it returns
`True` and rewrites the file with the appended store. -/
theorem save_data_ok_eq (now1 now2 : String) (data : List (String × JVal))
    (fs : FileState) (sf : List (String × JVal)) (es : List JVal)
    (hrs : read_storage fs = .obj sf)
    (hes : lookupKey "entries" sf = some (.arr es))
    (hser : (appendedStore now1 now2 data sf es).serializable = true) :
    save_data .ok now1 now2 data fs
      = (true, .json (appendedStore now1 now2 data sf es)) := by
  unfold save_data
  rw [hrs]
  simp [hes, hser]

/-- `save_data` on a loaded value without a dict-with-entries-list shape:
the Python raises before the write phase, so the call returns `False` and
the file is untouched, whatever the write phase would have done. -/
theorem save_data_badShape (io : WriteOutcome) (now1 now2 : String)
    (data : List (String × JVal)) (fs : FileState)
    (h : entriesOf (read_storage fs) = none) :
    save_data io now1 now2 data fs = (false, fs) := by
  unfold save_data
  unfold entriesOf at h
  split
  next sf hrs =>
    rw [hrs] at h
    split
    next es hes => simp [hes] at h
    next hes => rfl
  next hrs => rfl

theorem lookupKey_entries_appended (now1 now2 : String)
    (data sf : List (String × JVal)) (es : List JVal) :
    lookupKey "entries" (setKey "lastUpdated" (JVal.str now2)
      (setKey "entries"
        (JVal.arr (es ++ [JVal.obj (setKey "timestamp" (JVal.str now1) data)])) sf))
      = some (JVal.arr (es ++ [JVal.obj (setKey "timestamp" (JVal.str now1) data)])) := by
  rw [lookupKey_setKey_ne _ _ _ _ (by decide), lookupKey_setKey_self]

theorem entriesOf_obj {sf : List (String × JVal)} {es : List JVal}
    (h : lookupKey "entries" sf = some (.arr es)) :
    entriesOf (.obj sf) = some es := by
  simp [entriesOf, h]

theorem entriesOf_appendedStore (now1 now2 : String)
    (data sf : List (String × JVal)) (es : List JVal) :
    entriesOf (appendedStore now1 now2 data sf es)
      = some (es ++ [.obj (setKey "timestamp" (.str now1) data)]) := by
  simp [appendedStore, entriesOf, lookupKey_entries_appended]

theorem lastUpdatedOf_appendedStore (now1 now2 : String)
    (data sf : List (String × JVal)) (es : List JVal) :
    lastUpdatedOf (appendedStore now1 now2 data sf es) = some (.str now2) := by
  simp [appendedStore, lastUpdatedOf, lookupKey_setKey_self]

theorem metadataOf_appendedStore (now1 now2 : String)
    (data sf : List (String × JVal)) (es : List JVal) :
    metadataOf (appendedStore now1 now2 data sf es) = lookupKey "metadata" sf := by
  simp only [appendedStore, metadataOf]
  rw [lookupKey_setKey_ne _ _ _ _ (by decide), lookupKey_setKey_ne _ _ _ _ (by decide)]

theorem serializableObj_of_appendedStore {now1 now2 : String}
    {data sf : List (String × JVal)} {es : List JVal}
    (h : (appendedStore now1 now2 data sf es).serializable = true) :
    serializableObj (setKey "lastUpdated" (JVal.str now2)
      (setKey "entries"
        (JVal.arr (es ++ [JVal.obj (setKey "timestamp" (JVal.str now1) data)])) sf))
      = true := by
  simpa [appendedStore, JVal.serializable] using h

theorem wellFormed_elim {fs : FileState} (h : wellFormed fs = true) :
    ∃ sf es, read_storage fs = .obj sf ∧
      lookupKey "entries" sf = some (.arr es) ∧ serializableObj sf = true := by
  unfold wellFormed at h
  split at h
  next sf hrs =>
    split at h
    next es hes => exact ⟨sf, es, hrs, hes, h⟩
    next => exact absurd h (by simp)
  next => exact absurd h (by simp)

theorem wellFormed_intro {fs : FileState} {sf : List (String × JVal)} {es : List JVal}
    (hrs : read_storage fs = .obj sf)
    (hes : lookupKey "entries" sf = some (.arr es))
    (hser : serializableObj sf = true) :
    wellFormed fs = true := by
  unfold wellFormed
  rw [hrs]
  simp [hes, hser]

/-- One `save_data` step from a well-formed backing file with serializable
payload: it succeeds and leaves a well-formed file again. -/
theorem save_data_wf_step (c : AppendCall) (fs : FileState)
    (hwf : wellFormed fs = true) (hdata : serializableObj c.data = true) :
    ∃ sf es, read_storage fs = .obj sf ∧
      lookupKey "entries" sf = some (.arr es) ∧
      save_data .ok c.now1 c.now2 c.data fs
        = (true, .json (appendedStore c.now1 c.now2 c.data sf es)) ∧
      wellFormed (.json (appendedStore c.now1 c.now2 c.data sf es)) = true := by
  obtain ⟨sf, es, hrs, hes, hser⟩ := wellFormed_elim hwf
  have happ := appendedStore_serializable c.now1 c.now2 c.data sf es hser hes hdata
  refine ⟨sf, es, hrs, hes, save_data_ok_eq _ _ _ _ _ _ hrs hes happ, ?_⟩
  exact wellFormed_intro rfl (lookupKey_entries_appended c.now1 c.now2 c.data sf es)
    (serializableObj_of_appendedStore happ)

/-- Running a list of append calls with serializable payloads from a
well-formed file: every call returns `True`, the file stays well-formed, and
the entries list is extended by exactly the called-for entries, in call
order; after a non-empty run, `lastUpdated` is the second clock reading of
the last call. -/
theorem runAppends_spec (cs : List AppendCall) :
    ∀ fs : FileState, wellFormed fs = true →
      (∀ c ∈ cs, serializableObj c.data = true) →
      allSucceed cs fs = true ∧
      wellFormed (runAppends cs fs) = true ∧
      entriesOf (read_storage (runAppends cs fs))
        = (entriesOf (read_storage fs)).map (fun es => es ++ cs.map entryOf) ∧
      ∀ c, cs.getLast? = some c →
        lastUpdatedOf (read_storage (runAppends cs fs)) = some (.str c.now2) := by
  induction cs with
  | nil =>
    intro fs hwf _
    refine ⟨rfl, hwf, by simp [runAppends], ?_⟩
    intro c hc
    simp at hc
  | cons c cs ih =>
    intro fs hwf hdata
    obtain ⟨sf, es, hrs, hes, hstep, hwf1⟩ :=
      save_data_wf_step c fs hwf (hdata c (by simp))
    have hdata2 : ∀ d ∈ cs, serializableObj d.data = true :=
      fun d hd => hdata d (by simp [hd])
    obtain ⟨hsucc, hwf2, hrun, hlast⟩ :=
      ih (.json (appendedStore c.now1 c.now2 c.data sf es)) hwf1 hdata2
    have hrun1 : runAppends (c :: cs) fs
        = runAppends cs (.json (appendedStore c.now1 c.now2 c.data sf es)) := by
      simp [runAppends, hstep]
    have hes1 : entriesOf (read_storage
        (.json (appendedStore c.now1 c.now2 c.data sf es)))
        = some (es ++ [entryOf c]) := by
      simpa [read_storage, entryOf] using
        entriesOf_appendedStore c.now1 c.now2 c.data sf es
    refine ⟨?_, ?_, ?_, ?_⟩
    · simp [allSucceed, hstep, hsucc]
    · rw [hrun1]; exact hwf2
    · rw [hrun1, hrun, hes1, hrs, entriesOf_obj hes]
      simp
    · intro d hd
      cases cs with
      | nil =>
        simp at hd
        subst hd
        rw [hrun1]
        simpa [runAppends, read_storage] using
          lastUpdatedOf_appendedStore c.now1 c.now2 c.data sf es
      | cons c2 cs2 =>
        rw [hrun1]
        exact hlast d (by simpa [List.getLast?_cons_cons] using hd)

theorem getLast?_append_singleton {α : Type} (l : List α) (e : α) :
    (l ++ [e]).getLast? = some e := by
  rw [List.getLast?_append_cons]
  rfl

theorem timestampOf_setKey (now1 : String) (data : List (String × JVal)) :
    timestampOf (.obj (setKey "timestamp" (.str now1) data)) = some (.str now1) := by
  simp [timestampOf, lookupKey_setKey_self]

theorem save_data_openFail (now1 now2 : String)
    (data : List (String × JVal)) (fs : FileState) :
    save_data .openFail now1 now2 data fs = (false, fs) := by
  unfold save_data
  split
  next sf hrs =>
    split
    next es hes => rfl
    next => rfl
  next => rfl

/-- Every call of `save_data` ends in exactly one of three ways: failure with
the file untouched, failure with the file truncated to invalid content, or
success. -/
theorem save_data_cases (io : WriteOutcome) (now1 now2 : String)
    (data : List (String × JVal)) (fs : FileState) :
    save_data io now1 now2 data fs = (false, fs) ∨
    save_data io now1 now2 data fs = (false, .invalid) ∨
    (save_data io now1 now2 data fs).1 = true := by
  cases io with
  | openFail => exact Or.inl (save_data_openFail now1 now2 data fs)
  | writeFail =>
    unfold save_data
    split
    next sf hrs =>
      split
      next es hes => right; left; rfl
      next => left; rfl
    next => left; rfl
  | ok =>
    unfold save_data
    split
    next sf hrs =>
      split
      next es hes =>
        by_cases hser : (appendedStore now1 now2 data sf es).serializable = true
        · right; right; simp [hser]
        · right; left; simp [hser]
      next => left; rfl
    next => left; rfl

/-- Inversion of the shape check: a value with an `entries` component is a
dict whose `"entries"` key holds a list. -/
theorem entriesOf_eq_some {v : JVal} {es : List JVal}
    (h : entriesOf v = some es) :
    ∃ sf, v = .obj sf ∧ lookupKey "entries" sf = some (.arr es) := by
  unfold entriesOf at h
  split at h
  next sf =>
    split at h
    next es2 hlk =>
      injection h with h2
      subst h2
      exact ⟨sf, rfl, hlk⟩
    next hlk => exact absurd h (by simp)
  next => exact absurd h (by simp)

/-- A write-phase I/O failure after the truncating open, on a loaded store of
the right shape: `save_data` returns `False` and the file is left with
incomplete, invalid content. -/
theorem save_data_writeFail_shaped (now1 now2 : String)
    (data sf : List (String × JVal)) (es : List JVal) (fs : FileState)
    (hrs : read_storage fs = .obj sf)
    (hes : lookupKey "entries" sf = some (.arr es)) :
    save_data .writeFail now1 now2 data fs = (false, .invalid) := by
  unfold save_data
  rw [hrs]
  simp [hes]

/-- A serialization failure during `json.dump`, on a loaded store of the
right shape: the open already truncated the file, so `save_data` returns
`False` and the file is left with incomplete, invalid content. -/
theorem save_data_unserializable (now1 now2 : String)
    (data sf : List (String × JVal)) (es : List JVal) (fs : FileState)
    (hrs : read_storage fs = .obj sf)
    (hes : lookupKey "entries" sf = some (.arr es))
    (hser : (appendedStore now1 now2 data sf es).serializable = false) :
    save_data .ok now1 now2 data fs = (false, .invalid) := by
  unfold save_data
  rw [hrs]
  simp [hes, hser]

/-- C1, as stated, is false: fields mappings may themselves contain a
`timestamp` key, which the dict merge on line 13 overwrites with the clock
reading, so the non-timestamp fields of the last entry need not equal `fields`.
Concretely, `append(\x7b"timestamp": "boom"\x7d)` succeeds but leaves a last
entry with no non-timestamp fields at all. -/
theorem C1_counterexample :
    (save_data .ok "t0" "t0" [("timestamp", JVal.str "boom")] .absent).1 = true ∧
    (lastEntryOf (read_storage
        (save_data .ok "t0" "t0" [("timestamp", JVal.str "boom")] .absent).2)).bind
      nonTimestampFields = some [] ∧
    some ([] : List (String × JVal)) ≠ some [("timestamp", JVal.str "boom")] := by
  refine ⟨rfl, rfl, ?_⟩
  simp

/-- C1 (amended): after every successful `append(fields)`, `readAll()` yields
a store whose last `entries` element is `fields` with its `timestamp` key set
to the append-time clock reading; its non-timestamp fields therefore equal
`fields` with any caller-supplied `timestamp` key removed, hence equal
`fields` itself whenever `fields` does not use the key `timestamp`. -/
theorem C1_append_persists_amended (io : WriteOutcome) (now1 now2 : String)
    (data : List (String × JVal)) (fs fs' : FileState)
    (h : save_data io now1 now2 data fs = (true, fs')) :
    lastEntryOf (read_storage fs')
      = some (.obj (setKey "timestamp" (.str now1) data)) ∧
    (lastEntryOf (read_storage fs')).bind nonTimestampFields
      = some (removeKey "timestamp" data) ∧
    ("timestamp" ∉ data.map Prod.fst → removeKey "timestamp" data = data) := by
  obtain ⟨-, sf, es, hrs, hes, hser, hfs⟩ := save_data_true_inversion _ _ _ _ _ _ h
  subst hfs
  have he : entriesOf (read_storage (.json (appendedStore now1 now2 data sf es)))
      = some (es ++ [.obj (setKey "timestamp" (.str now1) data)]) := by
    simpa [read_storage] using entriesOf_appendedStore now1 now2 data sf es
  have hlast : lastEntryOf (read_storage (.json (appendedStore now1 now2 data sf es)))
      = some (.obj (setKey "timestamp" (.str now1) data)) := by
    simp [lastEntryOf, he, getLast?_append_singleton]
  refine ⟨hlast, ?_, removeKey_of_not_mem _ _⟩
  rw [hlast]
  simp [Option.bind, nonTimestampFields, removeKey_setKey]

/-- Witness for C1 at a concrete input: one append of
`\x7b"question": "q"\x7d` onto a fresh store. -/
theorem C1_witness :
    lastEntryOf (read_storage
        (save_data .ok "t" "t" [("question", JVal.str "q")] .absent).2)
      = some (.obj (setKey "timestamp" (.str "t") [("question", JVal.str "q")])) ∧
    (lastEntryOf (read_storage
        (save_data .ok "t" "t" [("question", JVal.str "q")] .absent).2)).bind
      nonTimestampFields
      = some (removeKey "timestamp" [("question", JVal.str "q")]) ∧
    ("timestamp" ∉ [("question", JVal.str "q")].map Prod.fst →
      removeKey "timestamp" [("question", JVal.str "q")] = [("question", JVal.str "q")]) :=
  C1_append_persists_amended .ok "t" "t" [("question", JVal.str "q")] .absent _ rfl

/-- C2, as stated, is false: `save_data` calls `datetime.now()` twice (lines
14 and 16), so the entry timestamp and `lastUpdated` come from two distinct
clock readings.  When the readings differ — which they do in general, since
`isoformat()` carries microseconds — `lastUpdated` is not the timestamp of
the appended entry. -/
theorem C2_counterexample :
    (save_data .ok "t1" "t2" [("question", JVal.str "q")] .absent).1 = true ∧
    lastUpdatedOf (read_storage
        (save_data .ok "t1" "t2" [("question", JVal.str "q")] .absent).2)
      = some (JVal.str "t2") ∧
    (lastEntryOf (read_storage
        (save_data .ok "t1" "t2" [("question", JVal.str "q")] .absent).2)).bind
      timestampOf = some (JVal.str "t1") ∧
    some (JVal.str "t2") ≠ some (JVal.str "t1") := by
  refine ⟨rfl, rfl, rfl, ?_⟩
  simp

/-- C2 (amended): after every successful append, `lastUpdated` is the second
of the two clock readings the call takes, and the `timestamp` of the appended
entry is the first; the two agree whenever the readings coincide. -/
theorem C2_two_clock_readings (io : WriteOutcome) (now1 now2 : String)
    (data : List (String × JVal)) (fs fs' : FileState)
    (h : save_data io now1 now2 data fs = (true, fs')) :
    lastUpdatedOf (read_storage fs') = some (.str now2) ∧
    (lastEntryOf (read_storage fs')).bind timestampOf = some (.str now1) ∧
    (now1 = now2 →
      lastUpdatedOf (read_storage fs')
        = (lastEntryOf (read_storage fs')).bind timestampOf) := by
  obtain ⟨-, sf, es, hrs, hes, hser, hfs⟩ := save_data_true_inversion _ _ _ _ _ _ h
  subst hfs
  have he : entriesOf (read_storage (.json (appendedStore now1 now2 data sf es)))
      = some (es ++ [.obj (setKey "timestamp" (.str now1) data)]) := by
    simpa [read_storage] using entriesOf_appendedStore now1 now2 data sf es
  have hlast : lastEntryOf (read_storage (.json (appendedStore now1 now2 data sf es)))
      = some (.obj (setKey "timestamp" (.str now1) data)) := by
    simp [lastEntryOf, he, getLast?_append_singleton]
  have hlu : lastUpdatedOf (read_storage (.json (appendedStore now1 now2 data sf es)))
      = some (.str now2) := by
    simpa [read_storage] using lastUpdatedOf_appendedStore now1 now2 data sf es
  refine ⟨hlu, ?_, ?_⟩
  · rw [hlast]
    simpa [Option.bind] using timestampOf_setKey now1 data
  · intro hnn
    rw [hlu, hlast]
    simpa [Option.bind, timestampOf_setKey now1 data] using congrArg (JVal.str · ) hnn.symm

/-- Witness for C2 at a concrete input where the two clock readings happen
to coincide. -/
theorem C2_witness :
    lastUpdatedOf (read_storage
        (save_data .ok "t" "t" [("answer", JVal.str "a")] .absent).2)
      = some (.str "t") ∧
    (lastEntryOf (read_storage
        (save_data .ok "t" "t" [("answer", JVal.str "a")] .absent).2)).bind
      timestampOf = some (.str "t") ∧
    ("t" = "t" →
      lastUpdatedOf (read_storage
          (save_data .ok "t" "t" [("answer", JVal.str "a")] .absent).2)
        = (lastEntryOf (read_storage
            (save_data .ok "t" "t" [("answer", JVal.str "a")] .absent).2)).bind
          timestampOf) :=
  C2_two_clock_readings .ok "t" "t" [("answer", JVal.str "a")] .absent _ rfl

/-- C3, as stated, is false: in `src/app.py` the `process_query` flow appends
the answered pair only to the in-memory `st.session_state.chat_history`;
`StorageHandler` is never imported or invoked, so the persistent log stays
empty even after a question has been answered. -/
theorem C3_counterexample :
    (process_query "What is 2+2?"
        ⟨some (fun _ => some "4"), [], .absent⟩).chat_history
      = [JVal.obj [("question", JVal.str "What is 2+2?"),
                   ("answer", JVal.str "4")]] ∧
    (process_query "What is 2+2?"
        ⟨some (fun _ => some "4"), [], .absent⟩).log_file = .absent ∧
    entriesOf (read_storage (process_query "What is 2+2?"
        ⟨some (fun _ => some "4"), [], .absent⟩).log_file) = some [] :=
  ⟨rfl, rfl, rfl⟩

/-- C3 (amended): after obtaining `(question, answerText)`, the chat flow
appends `\x7b"question": question, "answer": answerText\x7d` to the in-memory
session chat history only; the persistent `InteractionLog` is not invoked,
so the backing file — and hence `readAll()` — is unchanged. -/
theorem C3_chat_history_only (st : SessionState) (engine : String → Option String)
    (query response : String)
    (heng : st.query_engine = some engine)
    (hq : pyStrip query ≠ "")
    (hr : engine query = some response) :
    process_query query st
      = { st with chat_history := st.chat_history
            ++ [JVal.obj [("question", .str query), ("answer", .str response)]] } ∧
    (process_query query st).log_file = st.log_file ∧
    read_storage (process_query query st).log_file = read_storage st.log_file := by
  have h1 : process_query query st
      = { st with chat_history := st.chat_history
            ++ [JVal.obj [("question", .str query), ("answer", .str response)]] } := by
    unfold process_query
    simp only [if_neg hq, heng, hr]
  exact ⟨h1, by rw [h1], by rw [h1]⟩

/-- Witness for C3 at a concrete session: an initialized engine answering
`"A1"`, an empty history, and no backing file. -/
theorem C3_witness :
    process_query "Q1" ⟨some (fun _ => some "A1"), [], .absent⟩
      = { (⟨some (fun _ => some "A1"), [], .absent⟩ : SessionState) with
          chat_history := ([] : List JVal)
            ++ [JVal.obj [("question", .str "Q1"), ("answer", .str "A1")]] } ∧
    (process_query "Q1" ⟨some (fun _ => some "A1"), [], .absent⟩).log_file
      = (⟨some (fun _ => some "A1"), [], .absent⟩ : SessionState).log_file ∧
    read_storage (process_query "Q1"
        ⟨some (fun _ => some "A1"), [], .absent⟩).log_file
      = read_storage (⟨some (fun _ => some "A1"), [], .absent⟩ :
          SessionState).log_file :=
  C3_chat_history_only ⟨some (fun _ => some "A1"), [], .absent⟩
    (fun _ => some "A1") "Q1" "A1" rfl (by decide) rfl

/-- C4, as stated, is false: `save_data` opens the backing file with mode
`"w"` — truncating it — before `json.dump` starts streaming, so an append
that fails because a value in `fields` is not serializable leaves the file
truncated with a partial write, not unchanged.  Concretely, appending a
record containing an unserializable value to a file holding the valid
default store returns `False` and leaves the file without a valid store. -/
theorem C4_counterexample :
    save_data .ok "t1" "t2" [("x", JVal.nonser)] (.json defaultStore)
      = (false, .invalid) ∧
    FileState.invalid ≠ FileState.json defaultStore := by
  refine ⟨rfl, ?_⟩
  intro h
  exact FileState.noConfusion h

/-- C4 (amended): a failed append leaves the backing file unchanged only when
the failure happens before the write phase — when the loaded value is not a
dict with an `entries` list, or when the open itself fails (first, second and
fifth conjuncts).  A write error or a serialization error after the
truncating open leaves the file with invalid (truncated/partial) content
instead of unchanged (third and fourth conjuncts); in every failure case the
file is either unchanged or left invalid (last conjunct). -/
theorem C4_failure_file_effect (io : WriteOutcome) (now1 now2 : String)
    (data : List (String × JVal)) (fs : FileState)
    (sf : List (String × JVal)) (es : List JVal) :
    (entriesOf (read_storage fs) = none →
      save_data io now1 now2 data fs = (false, fs)) ∧
    (io = .openFail → save_data io now1 now2 data fs = (false, fs)) ∧
    (read_storage fs = .obj sf → lookupKey "entries" sf = some (.arr es) →
      io = .writeFail →
      save_data io now1 now2 data fs = (false, .invalid)) ∧
    (read_storage fs = .obj sf → lookupKey "entries" sf = some (.arr es) →
      (appendedStore now1 now2 data sf es).serializable = false →
      io = .ok →
      save_data io now1 now2 data fs = (false, .invalid)) ∧
    ((save_data io now1 now2 data fs).1 = false →
      (save_data io now1 now2 data fs).2 = fs →
      fs ≠ .invalid →
      entriesOf (read_storage fs) = none ∨ io = .openFail) ∧
    ((save_data io now1 now2 data fs).1 = false →
      (save_data io now1 now2 data fs).2 = fs ∨
      (save_data io now1 now2 data fs).2 = .invalid) := by
  refine ⟨save_data_badShape io now1 now2 data fs, ?_, ?_, ?_, ?_, ?_⟩
  · intro hio
    subst hio
    exact save_data_openFail now1 now2 data fs
  · intro hrs hes hio
    subst hio
    exact save_data_writeFail_shaped now1 now2 data sf es fs hrs hes
  · intro hrs hes hser hio
    subst hio
    exact save_data_unserializable now1 now2 data sf es fs hrs hes hser
  · intro hfalse hunch hne
    cases hent : entriesOf (read_storage fs) with
    | none => exact Or.inl rfl
    | some es2 =>
      obtain ⟨sf2, hrs2, hes2⟩ := entriesOf_eq_some hent
      cases io with
      | openFail => exact Or.inr rfl
      | writeFail =>
        exfalso
        rw [save_data_writeFail_shaped now1 now2 data sf2 es2 fs hrs2 hes2]
          at hunch
        exact hne hunch.symm
      | ok =>
        exfalso
        by_cases hser : (appendedStore now1 now2 data sf2 es2).serializable = true
        · rw [save_data_ok_eq now1 now2 data fs sf2 es2 hrs2 hes2 hser] at hfalse
          exact absurd hfalse (by simp)
        · have hser2 : (appendedStore now1 now2 data sf2 es2).serializable = false := by
            simpa using hser
          rw [save_data_unserializable now1 now2 data sf2 es2 fs hrs2 hes2 hser2]
            at hunch
          exact hne hunch.symm
  · intro hfalse
    rcases save_data_cases io now1 now2 data fs with h | h | h
    · left; rw [h]
    · right; rw [h]
    · rw [h] at hfalse
      exact absurd hfalse (by simp)

/-- Witness for C4 at concrete inputs, one per failure kind: a pre-write
shape failure (a JSON-array file) leaves the file unchanged; a write failure
after the open, and a serialization failure on an unserializable field value,
each leave the file invalid. -/
theorem C4_witness :
    save_data .ok "t1" "t2" [("question", JVal.str "q")] (.json (.arr []))
      = (false, .json (.arr [])) ∧
    save_data .writeFail "t1" "t2" [("question", JVal.str "q")]
        (.json defaultStore) = (false, .invalid) ∧
    save_data .ok "t1" "t2" [("x", JVal.nonser)] (.json defaultStore)
      = (false, .invalid) :=
  ⟨(C4_failure_file_effect .ok "t1" "t2" [("question", JVal.str "q")]
      (.json (.arr [])) [] []).1 rfl,
   (C4_failure_file_effect .writeFail "t1" "t2" [("question", JVal.str "q")]
      (.json defaultStore)
      [("entries", JVal.arr []), ("lastUpdated", JVal.null),
       ("metadata", JVal.obj [("version", JVal.str "1.0"),
         ("description", JVal.str "Data storage for AI web application")])]
      []).2.2.1 rfl rfl rfl,
   (C4_failure_file_effect .ok "t1" "t2" [("x", JVal.nonser)]
      (.json defaultStore)
      [("entries", JVal.arr []), ("lastUpdated", JVal.null),
       ("metadata", JVal.obj [("version", JVal.str "1.0"),
         ("description", JVal.str "Data storage for AI web application")])]
      []).2.2.2.1 rfl rfl rfl rfl⟩

/-- C5: a successful append rewrites the store so that the new `entries`
sequence is exactly the old one with the single new `LogEntry` appended at
the end, and the `metadata` field is unchanged; consequently, a sequence of
appends with serializable payloads starting from an empty store all succeed
and yield an `entries` list holding exactly the called-for entries, in call
order, one per call. -/
theorem C5_append_only_growth (io : WriteOutcome) (now1 now2 : String)
    (data : List (String × JVal)) (fs fs' : FileState) (cs : List AppendCall)
    (h : save_data io now1 now2 data fs = (true, fs'))
    (hcs : ∀ c ∈ cs, serializableObj c.data = true) :
    entriesOf (read_storage fs')
      = (entriesOf (read_storage fs)).map
          (fun es => es ++ [.obj (setKey "timestamp" (.str now1) data)]) ∧
    metadataOf (read_storage fs') = metadataOf (read_storage fs) ∧
    allSucceed cs .absent = true ∧
    entriesOf (read_storage (runAppends cs .absent)) = some (cs.map entryOf) ∧
    (cs.map entryOf).length = cs.length := by
  obtain ⟨-, sf, es, hrs, hes, hser, hfs⟩ := save_data_true_inversion _ _ _ _ _ _ h
  subst hfs
  obtain ⟨hall, -, hrun, -⟩ := runAppends_spec cs .absent (by decide) hcs
  refine ⟨?_, ?_, hall, ?_, by simp⟩
  · rw [hrs]
    simpa [read_storage, entriesOf_obj hes] using
      entriesOf_appendedStore now1 now2 data sf es
  · rw [hrs]
    simpa [read_storage, metadataOf] using
      metadataOf_appendedStore now1 now2 data sf es
  · rw [hrun]
    simp [read_storage, entriesOf, defaultStore, lookupKey]

/-- Witness for C5: one concrete successful append, plus a concrete run of
two appends from the empty store. -/
theorem C5_witness :
    entriesOf (read_storage
        (save_data .ok "t1" "t2" [("question", JVal.str "q")]
          (.json defaultStore)).2)
      = (entriesOf (read_storage (.json defaultStore))).map
          (fun es => es ++ [.obj (setKey "timestamp" (.str "t1")
            [("question", JVal.str "q")])]) ∧
    metadataOf (read_storage
        (save_data .ok "t1" "t2" [("question", JVal.str "q")]
          (.json defaultStore)).2)
      = metadataOf (read_storage (.json defaultStore)) ∧
    allSucceed [⟨"u1", "u2", [("a", JVal.str "x")]⟩,
                ⟨"u3", "u4", [("b", JVal.str "y")]⟩] .absent = true ∧
    entriesOf (read_storage (runAppends
        [⟨"u1", "u2", [("a", JVal.str "x")]⟩,
         ⟨"u3", "u4", [("b", JVal.str "y")]⟩] .absent))
      = some ([⟨"u1", "u2", [("a", JVal.str "x")]⟩,
               ⟨"u3", "u4", [("b", JVal.str "y")]⟩].map entryOf) ∧
    (([⟨"u1", "u2", [("a", JVal.str "x")]⟩,
       ⟨"u3", "u4", [("b", JVal.str "y")]⟩] : List AppendCall).map entryOf).length
      = ([⟨"u1", "u2", [("a", JVal.str "x")]⟩,
          ⟨"u3", "u4", [("b", JVal.str "y")]⟩] : List AppendCall).length :=
  C5_append_only_growth .ok "t1" "t2" [("question", JVal.str "q")]
    (.json defaultStore) _
    [⟨"u1", "u2", [("a", JVal.str "x")]⟩, ⟨"u3", "u4", [("b", JVal.str "y")]⟩]
    rfl (by decide)

/-- C6: `readAll()` never raises; a missing backing file, an empty file, or
one whose contents fail to parse as JSON (both latter cases are
`FileState.invalid`) all yield the fresh default store: empty `entries`,
null `lastUpdated`, default `metadata`. -/
theorem C6_readAll_defaults :
    read_storage .absent = defaultStore ∧
    read_storage .invalid = defaultStore ∧
    entriesOf defaultStore = some [] ∧
    lastUpdatedOf defaultStore = some .null ∧
    metadataOf defaultStore
      = some (.obj [("version", .str "1.0"),
                    ("description", .str "Data storage for AI web application")]) :=
  ⟨rfl, rfl, rfl, rfl, rfl⟩

/-- C7: `save_data` is a total function into `Bool × FileState` — every
exception path of the Python (bad store shape, open failure, write or
serialization failure) is an explicit `False` branch, so nothing escapes to
the caller — and it returns `True` precisely when the write phase succeeded
on a loaded store of the right shape whose rewritten form serialized. -/
theorem C7_append_total_boolean (io : WriteOutcome) (now1 now2 : String)
    (data : List (String × JVal)) (fs : FileState) :
    (save_data io now1 now2 data fs).1 = true ↔
      (io = .ok ∧ ∃ sf es, read_storage fs = .obj sf ∧
        lookupKey "entries" sf = some (.arr es) ∧
        (appendedStore now1 now2 data sf es).serializable = true) := by
  constructor
  · intro h
    have h2 : save_data io now1 now2 data fs
        = ((save_data io now1 now2 data fs).1,
           (save_data io now1 now2 data fs).2) := rfl
    rw [h] at h2
    obtain ⟨hio, sf, es, hrs, hes, hser, -⟩ :=
      save_data_true_inversion _ _ _ _ _ _ h2
    exact ⟨hio, sf, es, hrs, hes, hser⟩
  · rintro ⟨rfl, sf, es, hrs, hes, hser⟩
    rw [save_data_ok_eq now1 now2 data fs sf es hrs hes hser]

/-- C8: `readAll()` on a nonexistent backing file returns exactly the
default store: `entries = []`, `lastUpdated = null`, `metadata.version =
"1.0"` and the fixed description string. -/
theorem C8_default_store :
    read_storage .absent
      = .obj [("entries", .arr []),
              ("lastUpdated", .null),
              ("metadata", .obj [("version", .str "1.0"),
                                 ("description", .str "Data storage for AI web application")])] :=
  rfl

/-- C9: `append(\x7b"question": "日本語テスト", "answer": ""\x7d)` on a fresh
store succeeds; `readAll()` returns exactly those strings; and the file
content written by `json.dump(..., indent=2, ensure_ascii=False)` contains
the non-ASCII text literally, with no `\u` escape anywhere in it. -/
theorem C9_unicode_roundtrip :
    c9call.1 = true ∧
    (lastEntryOf (read_storage c9call.2)).bind (fun e => fieldOf e "question")
      = some (.str "日本語テスト") ∧
    (lastEntryOf (read_storage c9call.2)).bind (fun e => fieldOf e "answer")
      = some (.str "") ∧
    (dumpVal 0 (read_storage c9call.2)).isSome = true ∧
    dumpContains (read_storage c9call.2) "日本語テスト" = true ∧
    dumpContains (read_storage c9call.2) "\\u" = false := by
  refine ⟨rfl, rfl, rfl, rfl, ?_, ?_⟩ <;> (set_option maxRecDepth 100000 in decide)

/-- C10: when the backing file holds syntactically valid JSON that is not a
dict with an `entries` list (for example `\x7b\x7d` or a JSON array),
`readAll()` returns that parsed value unchanged — not the fresh default
store — and a subsequent append fails, returning `False` and leaving the
file exactly as it was, without reinitializing it. -/
theorem C10_nonstore_json (io : WriteOutcome) (now1 now2 : String)
    (data : List (String × JVal)) (v : JVal)
    (h : entriesOf v = none) :
    read_storage (.json v) = v ∧
    save_data io now1 now2 data (.json v) = (false, .json v) ∧
    v ≠ defaultStore := by
  refine ⟨rfl, save_data_badShape io now1 now2 data (.json v)
    (by simpa [read_storage] using h), ?_⟩
  intro hv
  subst hv
  have hds : entriesOf defaultStore = some [] := rfl
  rw [hds] at h
  exact Option.noConfusion h

/-- Witness for C10 at the concrete non-store file content `\x7b\x7d`. -/
theorem C10_witness :
    read_storage (.json (.obj [])) = .obj [] ∧
    save_data .ok "t1" "t2" [("question", JVal.str "q")] (.json (.obj []))
      = (false, .json (.obj [])) ∧
    JVal.obj [] ≠ defaultStore :=
  C10_nonstore_json .ok "t1" "t2" [("question", JVal.str "q")] (.obj []) rfl
